import Mathlib

/-!
Verification development for the radiodan broadcast-orchestration core.

Each Python component relevant to the checked claims is shallowly embedded:
pure computations become Lean functions over `ℚ`/`Int`/`String`/`List`,
SQLite tables become lists of row structures, and side effects (telnet
commands to the Liquidsoap mixer, event-store writes, queue persistence,
event emission) become explicit effect lists returned by the operations.
Telnet I/O itself is abstracted as an oracle `String → Except Unit String`
(`Except.error` models a timeout / refused connection / socket error,
which the Python client surfaces as `RuntimeError`).
-/

namespace Radiodan

/-- Numeric value of a decimal digit character, if it is one. -/
def digitVal? (c : Char) : Option Nat :=
  if c.isDigit then some (c.toNat - 48) else none

/-- Fold a non-empty, all-digit character list into a natural number. -/
def digitsToNat : List Char → Nat → Option Nat
  | [], _ => none
  | [c], acc => (digitVal? c).map (fun d => acc * 10 + d)
  | c :: rest, acc =>
    match digitVal? c with
    | some d => digitsToNat rest (acc * 10 + d)
    | none => none

/-- Model of Python `float(s)` on the decimal numerals this code exchanges
with Liquidsoap: an optional leading minus sign, an integer part, and an
optional fractional part. Anything else is a parse failure (ValueError). -/
def parseDecimal? (s : String) : Option ℚ :=
  let neg := s.startsWith "-"
  let body := if neg then s.drop 1 else s
  match body.splitOn "." with
  | [ip] => (digitsToNat ip.data 0).map (fun n => if neg then -(n : ℚ) else (n : ℚ))
  | [ip, fp] =>
    match digitsToNat ip.data 0, digitsToNat fp.data 0 with
    | some n, some f =>
      let q : ℚ := (n : ℚ) + (f : ℚ) / ((10 : ℚ) ^ fp.length)
      some (if neg then -q else q)
    | _, _ => none
  | _ => none

/-- Model of Python `int(s)` on signed decimal numerals. -/
def parseInt? (s : String) : Option Int :=
  let neg := s.startsWith "-"
  let body := if neg then s.drop 1 else s
  (digitsToNat body.data 0).map (fun n => if neg then -(n : Int) else (n : Int))

end Radiodan

/-!
## Mixer client (`bridge/audio/mixer.py`)

A host path is modelled as its list of components; a path-mapping table is
a list of `(host base components, container base string)` pairs, iterated
in insertion order exactly as the Python `dict` is.
-/

namespace Radiodan.Mixer

/-- Join path components with a slash; the empty relative path renders as
the single dot, matching `str(pathlib.Path("."))`. -/
def joinSegs : List String → String
  | [] => "."
  | [x] => x
  | x :: rest => x ++ "/" ++ joinSegs rest

/-- Model of `Path.relative_to`: the remainder of `p` after the base, or
`none` when `base` does not lead `p` (Python raises `ValueError`). -/
def relative_to : List String → List String → Option (List String)
  | p, [] => some p
  | [], _ :: _ => none
  | x :: xs, y :: ys => if x = y then relative_to xs ys else none

/-- `LiquidsoapMixer._to_container_path`: walk the mapping table in order
and rewrite under the first base that matches; otherwise return the host
path unchanged. -/
def to_container_path (mappings : List (List String × String)) (p : List String) : String :=
  match mappings with
  | [] => joinSegs p
  | (hostBase, containerBase) :: rest =>
    match relative_to p hostBase with
    | some rel => containerBase ++ "/" ++ joinSegs rel
    | none => to_container_path rest p

/-- Best (longest-base) match over the mapping table, for comparison with
the spec's description of the translation. -/
def bestMatch : List (List String × String) → List String → Option (Nat × String × List String)
  | [], _ => none
  | (hostBase, containerBase) :: rest, p =>
    let r := bestMatch rest p
    match relative_to p hostBase with
    | none => r
    | some rel =>
      match r with
      | none => some (hostBase.length, containerBase, rel)
      | some (bl, bc, brel) =>
        if bl < hostBase.length then some (hostBase.length, containerBase, rel)
        else some (bl, bc, brel)

/-- Modelled from the spec: the spec says the client translates host paths
"via a configured mapping table (longest-match prefix)"; this definition
follows those words (the longest matching base wins), to be compared with
`to_container_path`, which the source actually implements. -/
def to_container_path_longest (mappings : List (List String × String)) (p : List String) : String :=
  match bestMatch mappings p with
  | none => joinSegs p
  | some (_, containerBase, rel) => containerBase ++ "/" ++ joinSegs rel

/-- The telnet transport: maps a command line to a response, or fails the
way a timeout / refused connection / socket error fails. -/
abbrev Conn := String → Except Unit String

/-- `LiquidsoapMixer._send_command` reduced to the oracle itself. -/
def send_command (conn : Conn) (cmd : String) : Except Unit String := conn cmd

/-- `get_remaining`: seconds remaining, or `-1.0` on connection or parse error. -/
def get_remaining (conn : Conn) : ℚ :=
  match send_command conn "music.remaining" with
  | Except.error _ => -1
  | Except.ok s =>
    match Radiodan.parseDecimal? s.trim with
    | some q => q
    | none => -1

/-- `get_elapsed`: seconds elapsed, or `-1.0` on connection or parse error. -/
def get_elapsed (conn : Conn) : ℚ :=
  match send_command conn "music.elapsed" with
  | Except.error _ => -1
  | Except.ok s =>
    match Radiodan.parseDecimal? s.trim with
    | some q => q
    | none => -1

/-- `get_music_queue_length`: queued track count, or 0 on error. -/
def get_music_queue_length (conn : Conn) : Int :=
  match send_command conn "music_q.queue_length" with
  | Except.error _ => 0
  | Except.ok s =>
    match Radiodan.parseInt? s.trim with
    | some n => n
    | none => 0

/-- `queue_tts`: push a voice file, reporting success. -/
def queue_tts (conn : Conn) (mappings : List (List String × String)) (audioPath : List String) : Bool :=
  match send_command conn ("tts.push " ++ to_container_path mappings audioPath) with
  | Except.ok _ => true
  | Except.error _ => false

/-- `queue_earcon`: push an earcon file, reporting success. -/
def queue_earcon (conn : Conn) (mappings : List (List String × String)) (audioPath : List String) : Bool :=
  match send_command conn ("earcons.push " ++ to_container_path mappings audioPath) with
  | Except.ok _ => true
  | Except.error _ => false

/-- `queue_music`: push a music track, reporting success. -/
def queue_music (conn : Conn) (mappings : List (List String × String)) (audioPath : List String) : Bool :=
  match send_command conn ("music_q.push " ++ to_container_path mappings audioPath) with
  | Except.ok _ => true
  | Except.error _ => false

/-- Clamp a scalar to `[lo, hi]`, as `max(lo, min(hi, v))`. -/
def clamp (lo hi v : ℚ) : ℚ := max lo (min hi v)

/-- Shared shape of the scalar setters: clamp, send `var.set`, report
success. Mute-state bookkeeping and config-store persistence happen after
a successful send and do not affect the returned status. -/
def set_var (conn : Conn) (name : String) (lo hi v : ℚ) : Bool :=
  let v := clamp lo hi v
  match send_command conn ("var.set " ++ name ++ " = " ++ toString v) with
  | Except.ok _ => true
  | Except.error _ => false

/-- `set_music_volume` (clamped to [0,1]). -/
def set_music_volume (conn : Conn) (v : ℚ) : Bool := set_var conn "music_vol" 0 1 v

/-- `set_tts_volume` (clamped to [0,1]). -/
def set_tts_volume (conn : Conn) (v : ℚ) : Bool := set_var conn "tts_vol" 0 1 v

/-- `set_earcon_volume` (clamped to [0,1]). -/
def set_earcon_volume (conn : Conn) (v : ℚ) : Bool := set_var conn "earcon_vol" 0 1 v

/-- `set_duck_amount` (clamped to [0,1]). -/
def set_duck_amount (conn : Conn) (v : ℚ) : Bool := set_var conn "duck_amount" 0 1 v

/-- `set_crossfade_duration` (clamped to [1,15]). -/
def set_crossfade_duration (conn : Conn) (v : ℚ) : Bool :=
  set_var conn "crossfade_duration" 1 15 v

/-- `set_duck_in_duration` (clamped to [0.05,5]). -/
def set_duck_in_duration (conn : Conn) (v : ℚ) : Bool :=
  set_var conn "duck_in_duration" (1/20) 5 v

/-- `set_duck_out_duration` (clamped to [0.05,5]). -/
def set_duck_out_duration (conn : Conn) (v : ℚ) : Bool :=
  set_var conn "duck_out_duration" (1/20) 5 v

/-- `set_duck_in_curve` (clamped to [0,1]). -/
def set_duck_in_curve (conn : Conn) (v : ℚ) : Bool := set_var conn "duck_in_curve" 0 1 v

/-- `set_duck_out_curve` (clamped to [0,1]). -/
def set_duck_out_curve (conn : Conn) (v : ℚ) : Bool := set_var conn "duck_out_curve" 0 1 v

/-- The nine engine variables `get_volumes` reads, in request order. -/
def volume_vars : List String :=
  ["music_vol", "tts_vol", "earcon_vol", "duck_amount", "crossfade_duration",
   "duck_in_duration", "duck_out_duration", "duck_in_curve", "duck_out_curve"]

/-- The documented per-field defaults that seed the `get_volumes` result. -/
def volume_defaults : List (String × ℚ) :=
  [("music_vol", 1), ("tts_vol", 17/20), ("earcon_vol", 1/2), ("duck_amount", 3/20),
   ("crossfade_duration", 5), ("duck_in_duration", 4/5), ("duck_out_duration", 3/5),
   ("duck_in_curve", 7/10), ("duck_out_curve", 3/10)]

/-- Replace the value stored under a key of an association list. -/
def setAssoc (l : List (String × ℚ)) (k : String) (v : ℚ) : List (String × ℚ) :=
  l.map (fun kv => if kv.1 = k then (k, v) else kv)

/-- The `get_volumes` read loop: a connection failure aborts the loop and
keeps whatever has been collected so far; a parse failure keeps that
field's default and continues. -/
def get_volumes_loop (conn : Conn) : List String → List (String × ℚ) → List (String × ℚ)
  | [], acc => acc
  | v :: rest, acc =>
    match send_command conn ("var.get " ++ v) with
    | Except.error _ => acc
    | Except.ok s =>
      match Radiodan.parseDecimal? s.trim with
      | some q => get_volumes_loop conn rest (setAssoc acc v q)
      | none => get_volumes_loop conn rest acc

/-- `get_volumes`: all nine scalars, falling back to defaults on error. -/
def get_volumes (conn : Conn) : List (String × ℚ) :=
  get_volumes_loop conn volume_vars volume_defaults

/-- The six metadata keys `get_track_info` reports. -/
def info_keys : List String := ["artist", "title", "filename", "genre", "year", "album"]

/-- Fold one `key=value` response line into the info map; lines without an
equals sign and unknown keys are ignored. -/
def parse_info_line (acc : List (String × String)) (line : String) : List (String × String) :=
  if line.contains '=' then
    let key := (line.takeWhile (fun c => c ≠ '=')).trim
    let value := ((line.dropWhile (fun c => c ≠ '=')).drop 1).trim
    if info_keys.contains key then
      acc.map (fun kv => if kv.1 = key then (key, value) else kv)
    else acc
  else acc

/-- `get_track_info`: parse `music.info` output, or return all-empty
fields when the command fails. -/
def get_track_info (conn : Conn) : List (String × String) :=
  let init := info_keys.map (fun k => (k, ""))
  match send_command conn "music.info" with
  | Except.error _ => init
  | Except.ok resp => (resp.trim.splitOn "\n").foldl parse_info_line init

/-- A transport on which every command fails (engine unreachable). -/
def conn_down : Conn := fun _ => Except.error ()

/-- The attribute names `LiquidsoapMixer` defines (its methods and
properties, `bridge/audio/mixer.py`); it is the only mixer class in the
repository and the one `main.py` wires to the planner. Note that
`flush_music_queue` — the call the planner's queue resync makes — is not
among them. -/
def mixer_method_names : List String :=
  ["queue_tts", "queue_earcon", "health_check", "queue_music", "get_music_queue_length",
   "set_crossfade_duration", "get_crossfade_duration", "set_music_volume", "set_tts_volume",
   "set_duck_amount", "set_duck_in_duration", "set_duck_out_duration", "set_duck_in_curve",
   "set_duck_out_curve", "set_earcon_volume", "get_volumes", "toggle_music_mute",
   "toggle_tts_mute", "flush_tts", "skip_tts", "next_track", "toggle_random",
   "get_track_info", "get_remaining", "get_elapsed", "start", "stop",
   "random_mode", "music_muted", "tts_muted"]

end Radiodan.Mixer

/-!
## Event store (`bridge/event_store.py`)

The two SQLite tables become lists of row structures; `_publish` messages
are returned as values. Timestamps are rationals.
-/

namespace Radiodan.Store

/-- One row of `event_log`. -/
structure EventRow where
  id : Nat
  event_type : String
  lane : String
  title : String
  started_at : ℚ
  ended_at : Option ℚ
  status : String
  created_at : ℚ
deriving DecidableEq, Repr

/-- One row of `event_detail`. -/
structure DetailRow where
  event_id : Nat
  key : String
  value : String
deriving DecidableEq, Repr

/-- The on-disk database backing an open store. -/
structure DB where
  rows : List EventRow
  details : List DetailRow
deriving DecidableEq, Repr

/-- The two orphan-closing UPDATEs run by `EventStore.open`, applied to a
single row: `active` rows complete and `scheduled` rows cancel, with
`ended_at = COALESCE(ended_at, started_at)`. -/
def close_orphan (r : EventRow) : EventRow :=
  if r.status = "active" then
    { r with ended_at := some (r.ended_at.getD r.started_at), status := "completed" }
  else if r.status = "scheduled" then
    { r with ended_at := some (r.ended_at.getD r.started_at), status := "cancelled" }
  else r

/-- The database state after `EventStore.open` finishes its recovery pass. -/
def open_store (db : DB) : DB :=
  { db with rows := db.rows.map close_orphan }

/-- Recovery of `_last_music_z_stagger`: the `z_stagger` detail of the
highest-id music-lane event, parsed as an integer, defaulting to 0. -/
def recover_last_z (db : DB) : Int :=
  let joined := db.details.filter (fun d =>
    d.key == "z_stagger" && db.rows.any (fun e => e.id == d.event_id && e.lane == "music"))
  let best := joined.foldl (fun acc d =>
    match acc with
    | none => some d
    | some b => if b.event_id < d.event_id then some d else some b) none
  match best with
  | none => 0
  | some d => (Radiodan.parseInt? d.value).getD 0

/-- An event as returned by `get_window`: the row plus its batch-joined
details. -/
structure EventOut where
  row : EventRow
  details : List DetailRow
deriving DecidableEq, Repr

/-- The lane filter: applied only when a non-empty lane list is given
(Python tests the list for truthiness, so `[]` behaves like `None`). -/
def lane_ok (lanes : Option (List String)) (r : EventRow) : Bool :=
  match lanes with
  | none => true
  | some l => if l.isEmpty then true else l.contains r.lane

/-- The `get_window` WHERE clause:
`started_at <= end_ts AND (ended_at IS NULL OR ended_at >= start_ts)`. -/
def overlapsB (start_ts end_ts : ℚ) (r : EventRow) : Bool :=
  decide (r.started_at ≤ end_ts) &&
    (match r.ended_at with
     | none => true
     | some e => decide (start_ts ≤ e))

/-- `EventStore.get_window`: `none` is a closed store (returns `[]`);
otherwise filter by window overlap and lanes, order by `started_at`, and
join each event's details. -/
def get_window (db : Option DB) (start_ts end_ts : ℚ) (lanes : Option (List String)) :
    List EventOut :=
  match db with
  | none => []
  | some db =>
    let filtered := db.rows.filter (fun r => overlapsB start_ts end_ts r && lane_ok lanes r)
    let sorted := filtered.insertionSort (fun x y => x.started_at ≤ y.started_at)
    sorted.map (fun r => { row := r, details := db.details.filter (fun d => d.event_id == r.id) })

/-- In-memory store state: the connection (if open), the id AUTOINCREMENT
will assign next, and the cached last music z-stagger. -/
structure StoreState where
  db : Option DB
  next_id : Nat
  last_music_z : Int
deriving DecidableEq, Repr

/-- The message published to subscribers by `start_event`. -/
structure Published where
  id : Nat
  event_type : String
  lane : String
  title : String
  started_at : ℚ
  ended_at : Option ℚ
  status : String
  created_at : ℚ
  details : List (String × String)
deriving DecidableEq, Repr

/-- `EventStore.start_event`: on a closed store return the sentinel `-1`
and publish nothing. Otherwise insert the row (note `ts = started_at or
now`: a `None` **or falsy zero** `started_at` is replaced by `now`),
insert its details, update the music z-stagger cache, and publish. -/
def start_event (st : StoreState) (event_type lane title : String)
    (details : List (String × String)) (status : String)
    (started_at : Option ℚ) (now : ℚ) :
    StoreState × Int × Option Published :=
  match st.db with
  | none => (st, -1, none)
  | some db =>
    let ts : ℚ :=
      match started_at with
      | some x => if x = 0 then now else x
      | none => now
    let event_id := st.next_id
    let row : EventRow :=
      { id := event_id, event_type := event_type, lane := lane, title := title,
        started_at := ts, ended_at := none, status := status, created_at := now }
    let detail_rows : List DetailRow :=
      details.map (fun kv => { event_id := event_id, key := kv.1, value := kv.2 })
    let db2 : DB := { rows := db.rows ++ [row], details := db.details ++ detail_rows }
    let last_z :=
      if lane = "music" then
        match details.find? (fun kv => kv.1 == "z_stagger") with
        | some kv => (Radiodan.parseInt? kv.2).getD st.last_music_z
        | none => st.last_music_z
      else st.last_music_z
    let msg : Published :=
      { id := event_id, event_type := event_type, lane := lane, title := title,
        started_at := ts, ended_at := none, status := status, created_at := now,
        details := details }
    ({ db := some db2, next_id := st.next_id + 1, last_music_z := last_z },
     (event_id : Int), some msg)

end Radiodan.Store

/-!
## Playlist planner (`bridge/audio/playlist_planner.py`)

Queue entries keep the fields the claims touch. The mixer resync, DB
persistence, event-store writes and `queue_changed` emission performed by
a mutation are captured as an ordered effect list. The feeder strategy's
successive `select_next` answers are modelled as a list of tracks.
-/

namespace Radiodan.Planner

/-- A queue entry: the track dict fields the claims are about. -/
structure Track where
  file_path : String
  duration_seconds : ℚ
  z_stagger : Int
  event_id : Option Int
deriving DecidableEq, Repr

/-- Planner state: the library, the upcoming queue, the lookahead target,
plus the event-store facts the planner reads and writes (the cached last
music z-stagger and the id the next created event will get). -/
structure PState where
  library : List Track
  upcoming : List Track
  lookahead : Nat
  last_music_z : Int
  next_event_id : Int
deriving DecidableEq, Repr

/-- Side effects a queue mutation performs, in order. -/
inductive Effect
  | flush_music_queue
  | push_music (path : String)
  | start_scheduled_event (t : Track)
  | end_event (id : Int) (status : String)
  | update_times
  | save_queue (q : List Track)
  | queue_changed (q : List Track)
deriving DecidableEq, Repr

/-- `_create_scheduled_event`: `start_event(lane="music", …, z_stagger)`
allocates the next id and, because the details carry `z_stagger`, updates
the store's cached last music z-stagger. -/
def create_scheduled_event (st : PState) (t : Track) : PState × Int :=
  ({ st with next_event_id := st.next_event_id + 1, last_music_z := t.z_stagger },
   st.next_event_id)

/-- The resync `_sync_liquidsoap_queue` spells out: flush `music_q`,
then re-push every upcoming track. CAVEAT: in the repository as it
stands this sequence is never performed — the flush line calls
`self.mixer.flush_music_queue()`, an attribute no mixer class defines
(see `Radiodan.Mixer.mixer_method_names`), so the call raises
`AttributeError` instead; `sync_liquidsoap_queue_run` below models the
actual execution. This list is the code's written-out intent, used to
describe the mutations' intended effect order. -/
def sync_effects (q : List Track) : List Effect :=
  Effect.flush_music_queue :: q.map (fun t => Effect.push_music t.file_path)

/-- `PlaylistPlanner.insert_track` as written: look the path up in the
library, clamp the position, insert, assign the stagger bit from the
predecessor (or the store's last music z-stagger at the head), create a
scheduled event, then resync, persist and emit. The in-range branch
describes the intended code path; `insert_track_run` below models the
execution, in which the resync raises before the flush, persist, emit
and `True` return. The in-memory queue state, the clamping and the
guards are the same in both. -/
def insert_track (st : PState) (file_path : String) (position : Option Int) :
    Bool × PState × List Effect :=
  match st.library.find? (fun t => t.file_path == file_path) with
  | none => (false, st, [])
  | some track =>
    let n := st.upcoming.length
    let pos : Nat :=
      match position with
      | none => n
      | some p => if p ≥ (n : Int) then n else (max 0 p).toNat
    let prev_z : Int :=
      if pos > 0 then
        match st.upcoming.get? (pos - 1) with
        | some t => t.z_stagger
        | none => 0
      else st.last_music_z
    let track1 : Track := { track with z_stagger := 1 - prev_z }
    let (st1, eid) := create_scheduled_event st track1
    let track2 : Track := { track1 with event_id := some eid }
    let q := st.upcoming.insertIdx pos track2
    (true, { st1 with upcoming := q },
     Effect.start_scheduled_event track2 :: Effect.update_times :: sync_effects q ++
       [Effect.save_queue q, Effect.queue_changed q])

/-- `PlaylistPlanner.remove_track` as written: out-of-range positions
return `None` and change nothing; otherwise pop the entry, end its event
`skipped`, resync, re-predict times, persist and emit. The in-range
branch describes the intended code path; `remove_track_run` below models
the execution, which raises at the resync's flush call. -/
def remove_track (st : PState) (position : Int) : Option Track × PState × List Effect :=
  if position < 0 ∨ (st.upcoming.length : Int) ≤ position then (none, st, [])
  else
    match st.upcoming.get? position.toNat with
    | none => (none, st, [])
    | some removed =>
      let q := st.upcoming.eraseIdx position.toNat
      let cancel : List Effect :=
        match removed.event_id with
        | some eid => if 0 < eid then [Effect.end_event eid "skipped"] else []
        | none => []
      (some removed, { st with upcoming := q },
       cancel ++ sync_effects q ++
         [Effect.update_times, Effect.save_queue q, Effect.queue_changed q])

/-- `PlaylistPlanner.move_track` as written: out-of-range positions
return `False` and change nothing; moving an entry onto itself returns
`True` and does nothing; otherwise pop, re-insert, resync, re-predict,
persist, emit. The in-range, distinct-positions branch describes the
intended code path; `move_track_run` below models the execution, which
raises at the resync's flush call. -/
def move_track (st : PState) (from_pos to_pos : Int) : Bool × PState × List Effect :=
  let n : Int := st.upcoming.length
  if from_pos < 0 ∨ n ≤ from_pos ∨ to_pos < 0 ∨ n ≤ to_pos then (false, st, [])
  else if from_pos = to_pos then (true, st, [])
  else
    match st.upcoming.get? from_pos.toNat with
    | none => (false, st, [])
    | some track =>
      let q := (st.upcoming.eraseIdx from_pos.toNat).insertIdx to_pos.toNat track
      (true, { st with upcoming := q },
       sync_effects q ++ [Effect.update_times, Effect.save_queue q, Effect.queue_changed q])

/-- Python attribute resolution on the planner's mixer: raises
`AttributeError` for a name no mixer class defines. -/
def mixer_lookup (name : String) : Except String Unit :=
  if Radiodan.Mixer.mixer_method_names.contains name then Except.ok ()
  else Except.error ("AttributeError: " ++ name)

/-- `_sync_liquidsoap_queue` as executed: the flush line first resolves
`flush_music_queue` on the mixer; since no mixer in the repository
defines it, the lookup raises `AttributeError` and neither the flush nor
the re-push happens. On a mixer that did define the method the effects
would be `sync_effects`. -/
def sync_liquidsoap_queue_run (q : List Track) : Except String (List Effect) :=
  match mixer_lookup "flush_music_queue" with
  | Except.error e => Except.error e
  | Except.ok _ => Except.ok (sync_effects q)

/-- `insert_track` as the program executes it: the result is the state
when control leaves the method, the effects actually performed, and
either the returned value or the exception that propagates. In the
in-range branch the in-memory insert, the scheduled-event creation and
the time update all happen, then `_sync_liquidsoap_queue` raises, so the
persist, the `queue_changed` emission and the `True` return are never
reached. -/
def insert_track_run (st : PState) (file_path : String) (position : Option Int) :
    PState × List Effect × Except String Bool :=
  match st.library.find? (fun t => t.file_path == file_path) with
  | none => (st, [], Except.ok false)
  | some track =>
    let n := st.upcoming.length
    let pos : Nat :=
      match position with
      | none => n
      | some p => if p ≥ (n : Int) then n else (max 0 p).toNat
    let prev_z : Int :=
      if pos > 0 then
        match st.upcoming.get? (pos - 1) with
        | some t => t.z_stagger
        | none => 0
      else st.last_music_z
    let track1 : Track := { track with z_stagger := 1 - prev_z }
    let r := create_scheduled_event st track1
    let track2 : Track := { track1 with event_id := some r.2 }
    let q := st.upcoming.insertIdx pos track2
    let st2 : PState := { r.1 with upcoming := q }
    let effs : List Effect := [Effect.start_scheduled_event track2, Effect.update_times]
    match sync_liquidsoap_queue_run q with
    | Except.error e => (st2, effs, Except.error e)
    | Except.ok effs2 =>
      (st2, effs ++ effs2 ++ [Effect.save_queue q, Effect.queue_changed q], Except.ok true)

/-- `remove_track` as the program executes it: an out-of-range position
returns `None` untouched; otherwise the entry is popped and its event
ended `skipped`, then `_sync_liquidsoap_queue` raises, so the time
update, the persist, the emission and the return of the removed track
are never reached. -/
def remove_track_run (st : PState) (position : Int) :
    PState × List Effect × Except String (Option Track) :=
  if position < 0 ∨ (st.upcoming.length : Int) ≤ position then (st, [], Except.ok none)
  else
    match st.upcoming.get? position.toNat with
    | none => (st, [], Except.ok none)
    | some removed =>
      let q := st.upcoming.eraseIdx position.toNat
      let cancel : List Effect :=
        match removed.event_id with
        | some eid => if 0 < eid then [Effect.end_event eid "skipped"] else []
        | none => []
      match sync_liquidsoap_queue_run q with
      | Except.error e => ({ st with upcoming := q }, cancel, Except.error e)
      | Except.ok effs2 =>
        ({ st with upcoming := q },
         cancel ++ effs2 ++
           [Effect.update_times, Effect.save_queue q, Effect.queue_changed q],
         Except.ok (some removed))

/-- `move_track` as the program executes it: the guard branches return
before the resync; the in-range, distinct-positions branch applies the
in-memory move and then raises at the resync's flush call. -/
def move_track_run (st : PState) (from_pos to_pos : Int) :
    PState × List Effect × Except String Bool :=
  let n : Int := st.upcoming.length
  if from_pos < 0 ∨ n ≤ from_pos ∨ to_pos < 0 ∨ n ≤ to_pos then (st, [], Except.ok false)
  else if from_pos = to_pos then (st, [], Except.ok true)
  else
    match st.upcoming.get? from_pos.toNat with
    | none => (st, [], Except.ok false)
    | some track =>
      let q := (st.upcoming.eraseIdx from_pos.toNat).insertIdx to_pos.toNat track
      match sync_liquidsoap_queue_run q with
      | Except.error e => ({ st with upcoming := q }, [], Except.error e)
      | Except.ok effs2 =>
        ({ st with upcoming := q },
         effs2 ++ [Effect.update_times, Effect.save_queue q, Effect.queue_changed q],
         Except.ok true)

/-- The z-stagger assignment of `_fill_queue_unlocked`: alternate from the
last queued entry, or from the store's last music z-stagger when the
queue is empty. -/
def assign_z (upcoming : List Track) (last_z : Int) (t : Track) : Track :=
  let prev_z : Int :=
    match upcoming.getLast? with
    | some p => p.z_stagger
    | none => last_z
  { t with z_stagger := 1 - prev_z }

/-- The selection loop of `_fill_queue_unlocked`: while the queue is
short, take the feeder's next answer, assign its stagger bit and append.
Returns the state and the tracks added (before event-id assignment). -/
def fill_select (feeds : List Track) (st : PState) : PState × List Track :=
  match feeds with
  | [] => (st, [])
  | t :: rest =>
    if st.upcoming.length < st.lookahead then
      let t1 := assign_z st.upcoming st.last_music_z t
      let r := fill_select rest { st with upcoming := st.upcoming ++ [t1] }
      (r.1, t1 :: r.2)
    else (st, [])

/-- `_fill_queue_unlocked`: run the selection loop, then create a
scheduled event for each newly added track (which assigns consecutive
event ids to the appended suffix and leaves the store's last music
z-stagger at the last added entry's bit). -/
def fill_queue (feeds : List Track) (st : PState) : PState × List Track :=
  let r := fill_select feeds st
  let st1 := r.1
  let added := r.2
  if added.isEmpty then (st1, added)
  else
    let k := st1.upcoming.length - added.length
    let upcoming2 := st1.upcoming.mapIdx (fun i t =>
      if k ≤ i then { t with event_id := some (st1.next_event_id + (i - k : Nat)) } else t)
    let last_z2 :=
      (match added.getLast? with
       | some t => t.z_stagger
       | none => st1.last_music_z)
    let st2 : PState :=
      { st1 with
          upcoming := upcoming2
          next_event_id := st1.next_event_id + added.length
          last_music_z := last_z2 }
    (st2, upcoming2.drop k)

/-- The alternation invariant on the upcoming queue: each entry's stagger
bit is the complement of its predecessor's. -/
def alternating : List Track → Bool
  | [] => true
  | [_] => true
  | a :: b :: rest => (b.z_stagger == 1 - a.z_stagger) && alternating (b :: rest)

end Radiodan.Planner

/-!
## Voice scheduler (`bridge/audio/voice_scheduler.py`)

`submit` dispatches on the trigger string. Event-store instrumentation,
the TTS-queue flush and segment playback become effects. The crossfade
duration read from the mixer for bridge scheduling is a parameter.
-/

namespace Radiodan.Voice

/-- A voice segment: the fields `submit` dispatches on, plus the event id
the instrumentation attached when the segment was queued. -/
structure VoiceSegment where
  text : String
  trigger : String
  priority : Int
  audio_duration : ℚ
  event_id : Option Int
deriving DecidableEq, Repr

/-- Scheduler state: the between-songs queue and the timed trigger lists. -/
structure VState where
  between_queue : List VoiceSegment
  before_end_triggers : List (ℚ × VoiceSegment)
  after_start_triggers : List (ℚ × VoiceSegment)
deriving DecidableEq, Repr

/-- Side effects of a `submit`, in order. -/
inductive VEffect
  | start_event (status : String) (seg : VoiceSegment)
  | flush_tts
  | end_event (id : Int) (status : String)
  | play (seg : VoiceSegment)
deriving DecidableEq, Repr

/-- `VoiceScheduler._interrupt_for`: flush the Liquidsoap TTS queue, keep
the between-songs segments whose priority number is at most the
interrupt's, end the others' events `cancelled`, then play the interrupt. -/
def interrupt_for (seg : VoiceSegment) (st : VState) : VState × List VEffect :=
  let kept := st.between_queue.filter (fun s => s.priority ≤ seg.priority)
  let cancelled := st.between_queue.filter (fun s => ¬ s.priority ≤ seg.priority)
  let cancel_effects := cancelled.filterMap (fun s =>
    s.event_id.map (fun eid => VEffect.end_event eid "cancelled"))
  ({ st with between_queue := kept },
   VEffect.flush_tts :: cancel_effects ++ [VEffect.play seg])

/-- The bridge timing math of `_schedule_bridge`: when the voice duration
is unknown (≤ 0) fall back to the crossfade duration, otherwise aim the
voice midpoint at the crossfade midpoint. -/
def bridge_trigger_at (crossfade_dur voice_dur : ℚ) : ℚ :=
  if voice_dur ≤ 0 then crossfade_dur else (voice_dur + crossfade_dur) / 2

/-- `VoiceScheduler._schedule_bridge`: register the segment as a
before-end trigger at the computed threshold. -/
def schedule_bridge (crossfade_dur : ℚ) (seg : VoiceSegment) (st : VState) : VState :=
  { st with
      before_end_triggers :=
        st.before_end_triggers ++ [(bridge_trigger_at crossfade_dur seg.audio_duration, seg)] }

/-- `VoiceScheduler.submit`: dispatch on the trigger expression.
`crossfade_dur` is the value `_schedule_bridge` reads from the mixer. -/
def submit (crossfade_dur : ℚ) (seg : VoiceSegment) (st : VState) : VState × List VEffect :=
  if seg.trigger = "asap" ∧ seg.priority < 0 then
    let r := interrupt_for seg st
    (r.1, VEffect.start_event "active" seg :: r.2)
  else if seg.trigger = "asap" then
    (st, [VEffect.start_event "active" seg, VEffect.play seg])
  else if seg.trigger = "between_songs" then
    ({ st with between_queue := st.between_queue ++ [seg] },
     [VEffect.start_event "scheduled" seg])
  else if seg.trigger = "bridge" then
    (schedule_bridge crossfade_dur seg st, [VEffect.start_event "scheduled" seg])
  else if seg.trigger.startsWith "before_end:" then
    match (seg.trigger.splitOn ":").get? 1 with
    | some s =>
      match Radiodan.parseDecimal? s with
      | some secs =>
        ({ st with before_end_triggers := st.before_end_triggers ++ [(secs, seg)] },
         [VEffect.start_event "scheduled" seg])
      | none => (st, [])
    | none => (st, [])
  else if seg.trigger.startsWith "after_start:" then
    match (seg.trigger.splitOn ":").get? 1 with
    | some s =>
      match Radiodan.parseDecimal? s with
      | some secs =>
        ({ st with after_start_triggers := st.after_start_triggers ++ [(secs, seg)] },
         [VEffect.start_event "scheduled" seg])
      | none => (st, [])
    | none => (st, [])
  else (st, [])

/-- A between-songs segment as it sits in the queue during the interrupt
scenario: known priority and event id. -/
def between_seg (pri : Int) (eid : Int) : VoiceSegment :=
  { text := "queued", trigger := "between_songs", priority := pri,
    audio_duration := 0, event_id := some eid }

end Radiodan.Voice

/-!
## Theorems
-/

namespace Radiodan.Mixer

/-- Helper: when no mapping base matches, the host path passes through. -/
theorem to_container_path_no_match (p : List String) :
    ∀ ms : List (List String × String),
      (∀ m ∈ ms, relative_to p m.1 = none) → to_container_path ms p = joinSegs p
  | [], _ => rfl
  | (b, c) :: rest, h => by
    have hb : relative_to p b = none := h (b, c) (by simp)
    simp only [to_container_path, hb]
    exact to_container_path_no_match p rest (fun m hm => h m (by simp [hm]))

/-- C7 (counterexample): with the table mapping `home/music` to `/X` and
`home/music/b` to `/Y`, the path `home/music/b/c.mp3` is translated under
the first-listed base `/X`, not under the longest matching base `/Y` as
the claim states. -/
theorem C7_counterexample :
    to_container_path
        [(["home", "music"], "/X"), (["home", "music", "b"], "/Y")]
        ["home", "music", "b", "c.mp3"] = "/X/b/c.mp3" ∧
    to_container_path_longest
        [(["home", "music"], "/X"), (["home", "music", "b"], "/Y")]
        ["home", "music", "b", "c.mp3"] = "/Y/c.mp3" ∧
    to_container_path
        [(["home", "music"], "/X"), (["home", "music", "b"], "/Y")]
        ["home", "music", "b", "c.mp3"]
      ≠ to_container_path_longest
          [(["home", "music"], "/X"), (["home", "music", "b"], "/Y")]
          ["home", "music", "b", "c.mp3"] := by
  refine ⟨rfl, rfl, ?_⟩
  decide

/-- C7 (amended): the mixer client translates a host path under the
*first* mapping in the table's iteration order whose base is a prefix of
the path, and passes a path matching no mapping through unchanged. -/
theorem C7_first_match_translation (ms1 ms2 : List (List String × String))
    (base : List String) (cont : String) (p rel : List String)
    (hpre : ∀ m ∈ ms1, relative_to p m.1 = none)
    (hbase : relative_to p base = some rel) :
    to_container_path (ms1 ++ (base, cont) :: ms2) p = cont ++ "/" ++ joinSegs rel ∧
    (∀ ms : List (List String × String), (∀ m ∈ ms, relative_to p m.1 = none) →
      to_container_path ms p = joinSegs p) := by
  constructor
  · induction ms1 with
    | nil => simp [to_container_path, hbase]
    | cons hd tl ih =>
      have hhd : relative_to p hd.1 = none := hpre hd (by simp)
      have : to_container_path (hd :: (tl ++ (base, cont) :: ms2)) p
          = to_container_path (tl ++ (base, cont) :: ms2) p := by
        obtain ⟨b, c⟩ := hd
        simp only [to_container_path, hhd]
      rw [List.cons_append, this]
      exact ih (fun m hm => hpre m (by simp [hm]))
  · exact to_container_path_no_match p

/-- C7 (witness): instantiation of the amended theorem on the concrete
table above — the second mapping is the first matching one. -/
theorem C7_first_match_translation_witness :
    to_container_path
        [(["tmp"], "/T"), (["home", "music"], "/X")] ["home", "music", "a.mp3"]
      = "/X" ++ "/" ++ joinSegs ["a.mp3"] ∧
    (∀ ms : List (List String × String),
      (∀ m ∈ ms, relative_to ["home", "music", "a.mp3"] m.1 = none) →
      to_container_path ms ["home", "music", "a.mp3"] = joinSegs ["home", "music", "a.mp3"]) :=
  C7_first_match_translation [(["tmp"], "/T")] [] ["home", "music"] "/X"
    ["home", "music", "a.mp3"] ["a.mp3"] (by decide) (by decide)

/-- C8: when every telnet command fails (timeout, refusal or socket
error), each mixer client operation returns its sentinel instead of
raising: timing queries return `-1.0`, the queue-length query returns 0,
the queue pushes and scalar setters return `False`, `get_volumes` returns
the documented defaults, and `get_track_info` returns empty fields. -/
theorem C8_failure_sentinels (conn : Conn) (mappings : List (List String × String))
    (path : List String) (v : ℚ)
    (hdown : ∀ c, conn c = Except.error ()) :
    get_remaining conn = -1 ∧
    get_elapsed conn = -1 ∧
    get_music_queue_length conn = 0 ∧
    queue_music conn mappings path = false ∧
    queue_tts conn mappings path = false ∧
    queue_earcon conn mappings path = false ∧
    set_music_volume conn v = false ∧
    set_tts_volume conn v = false ∧
    set_earcon_volume conn v = false ∧
    set_duck_amount conn v = false ∧
    set_crossfade_duration conn v = false ∧
    set_duck_in_duration conn v = false ∧
    set_duck_out_duration conn v = false ∧
    set_duck_in_curve conn v = false ∧
    set_duck_out_curve conn v = false ∧
    get_volumes conn = volume_defaults ∧
    get_track_info conn = info_keys.map (fun k => (k, "")) := by
  refine ⟨?_, ?_, ?_, ?_, ?_, ?_, ?_, ?_, ?_, ?_, ?_, ?_, ?_, ?_, ?_, ?_, ?_⟩ <;>
    simp [get_remaining, get_elapsed, get_music_queue_length, queue_music, queue_tts,
      queue_earcon, set_music_volume, set_tts_volume, set_earcon_volume, set_duck_amount,
      set_crossfade_duration, set_duck_in_duration, set_duck_out_duration,
      set_duck_in_curve, set_duck_out_curve, set_var, get_volumes, get_volumes_loop,
      volume_vars, get_track_info, send_command, hdown]

/-- C8 (witness): the sentinel behaviour evaluated on the always-failing
transport. -/
theorem C8_failure_sentinels_witness :
    get_remaining conn_down = -1 ∧
    get_elapsed conn_down = -1 ∧
    get_music_queue_length conn_down = 0 ∧
    queue_music conn_down [] [] = false ∧
    queue_tts conn_down [] [] = false ∧
    queue_earcon conn_down [] [] = false ∧
    set_music_volume conn_down 0 = false ∧
    set_tts_volume conn_down 0 = false ∧
    set_earcon_volume conn_down 0 = false ∧
    set_duck_amount conn_down 0 = false ∧
    set_crossfade_duration conn_down 0 = false ∧
    set_duck_in_duration conn_down 0 = false ∧
    set_duck_out_duration conn_down 0 = false ∧
    set_duck_in_curve conn_down 0 = false ∧
    set_duck_out_curve conn_down 0 = false ∧
    get_volumes conn_down = volume_defaults ∧
    get_track_info conn_down = info_keys.map (fun k => (k, "")) :=
  C8_failure_sentinels conn_down [] [] 0 (fun _ => rfl)

end Radiodan.Mixer

namespace Radiodan.Store

/-- Helper: the WHERE clause boolean unfolded to a proposition. -/
theorem overlapsB_eq_true (a b : ℚ) (r : EventRow) :
    overlapsB a b r = true ↔
      (r.started_at ≤ b ∧ (r.ended_at = none ∨ ∃ t, r.ended_at = some t ∧ a ≤ t)) := by
  unfold overlapsB
  cases h : r.ended_at with
  | none => simp [h]
  | some t => simp [h]

/-- C4 (counterexample): reopening a store over a row that was `active`
but already carried a predicted `ended_at` (as `advance()` writes for the
currently playing track) completes the row while *keeping* that
`ended_at`; the row does not become zero-width as the claim states. -/
theorem C4_counterexample :
    (open_store
        { rows := [{ id := 1, event_type := "track_play", lane := "music", title := "A",
                     started_at := 10, ended_at := some 50, status := "active",
                     created_at := 5 }],
          details := [] }).rows.map (fun r => (r.status, r.ended_at, r.started_at))
      = [("completed", some 50, 10)] ∧
    some (50 : ℚ) ≠ some (10 : ℚ) := by
  constructor
  · rfl
  · decide

/-- C4 (amended): after `EventStore.open`, every previously `active` row
is `completed` and every previously `scheduled` row is `cancelled`, in
each case with `ended_at = COALESCE(old ended_at, started_at)` — i.e.
`started_at` (zero-width) only when `ended_at` was NULL, otherwise the
existing `ended_at` is kept; rows with other statuses are untouched, and
no row is left `active` or `scheduled` until a new write occurs. -/
theorem C4_open_recovery (db : DB) (r : EventRow) (hmem : r ∈ db.rows) :
    close_orphan r ∈ (open_store db).rows ∧
    (r.status = "active" →
      (close_orphan r).status = "completed" ∧
      (close_orphan r).ended_at = some (r.ended_at.getD r.started_at)) ∧
    (r.status = "scheduled" →
      (close_orphan r).status = "cancelled" ∧
      (close_orphan r).ended_at = some (r.ended_at.getD r.started_at)) ∧
    (r.status ≠ "active" → r.status ≠ "scheduled" → close_orphan r = r) ∧
    (close_orphan r).status ≠ "active" ∧
    (close_orphan r).status ≠ "scheduled" := by
  refine ⟨List.mem_map_of_mem close_orphan hmem, ?_, ?_, ?_, ?_, ?_⟩ <;>
    · unfold close_orphan
      split_ifs with h1 h2 <;> simp_all

/-- C4 (witness): the recovery properties evaluated on a one-row store
holding an orphaned `active` event with no `ended_at`. -/
theorem C4_open_recovery_witness :
    let r : EventRow := { id := 1, event_type := "track_play", lane := "music", title := "A",
                          started_at := 10, ended_at := none, status := "active",
                          created_at := 5 }
    close_orphan r ∈ (open_store { rows := [r], details := [] }).rows ∧
    (r.status = "active" →
      (close_orphan r).status = "completed" ∧
      (close_orphan r).ended_at = some (r.ended_at.getD r.started_at)) ∧
    (r.status = "scheduled" →
      (close_orphan r).status = "cancelled" ∧
      (close_orphan r).ended_at = some (r.ended_at.getD r.started_at)) ∧
    (r.status ≠ "active" → r.status ≠ "scheduled" → close_orphan r = r) ∧
    (close_orphan r).status ≠ "active" ∧
    (close_orphan r).status ≠ "scheduled" :=
  C4_open_recovery { rows := [_], details := [] } _ (by simp)

/-- C5: on a closed store `get_window` returns `[]`; on an open store it
returns exactly the stored events with `started_at ≤ end_ts` and
(`ended_at` NULL or `≥ start_ts`), restricted to the requested lanes,
each carrying its batch-joined details, ordered by `started_at`. -/
theorem C5_get_window (db : DB) (a b : ℚ) (lanes : Option (List String)) (hab : a ≤ b) :
    get_window none a b lanes = [] ∧
    (∀ e : EventOut, e ∈ get_window (some db) a b lanes ↔
      (e.row ∈ db.rows ∧
       e.row.started_at ≤ b ∧
       (e.row.ended_at = none ∨ ∃ t, e.row.ended_at = some t ∧ a ≤ t) ∧
       lane_ok lanes e.row = true ∧
       e.details = db.details.filter (fun d => d.event_id == e.row.id))) ∧
    List.Sorted (fun x y : EventOut => x.row.started_at ≤ y.row.started_at)
      (get_window (some db) a b lanes) := by
  refine ⟨rfl, ?_, ?_⟩
  · intro e
    unfold get_window
    simp only [List.mem_map]
    constructor
    · rintro ⟨r, hr, rfl⟩
      have hr2 : r ∈ db.rows.filter (fun r => overlapsB a b r && lane_ok lanes r) :=
        (List.perm_insertionSort _ _).subset hr
      rw [List.mem_filter] at hr2
      obtain ⟨hrow, hpred⟩ := hr2
      rw [Bool.and_eq_true] at hpred
      obtain ⟨hov, hlane⟩ := hpred
      rw [overlapsB_eq_true] at hov
      exact ⟨hrow, hov.1, hov.2, hlane, rfl⟩
    · rintro ⟨hrow, hs, he, hlane, hdet⟩
      refine ⟨e.row, ?_, ?_⟩
      · apply (List.perm_insertionSort _ _).mem_iff.mpr
        rw [List.mem_filter]
        exact ⟨hrow, by rw [Bool.and_eq_true, overlapsB_eq_true]; exact ⟨⟨hs, he⟩, hlane⟩⟩
      · cases e
        simp_all
  · unfold get_window
    haveI : IsTotal EventRow (fun x y => x.started_at ≤ y.started_at) :=
      ⟨fun x y => le_total x.started_at y.started_at⟩
    haveI : IsTrans EventRow (fun x y => x.started_at ≤ y.started_at) :=
      ⟨fun _ _ _ h1 h2 => le_trans h1 h2⟩
    have hs := List.sorted_insertionSort (fun x y : EventRow => x.started_at ≤ y.started_at)
      (db.rows.filter (fun r => overlapsB a b r && lane_ok lanes r))
    exact List.Pairwise.map _ (fun x y h => h) hs

/-- C5 (witness): the window query characterisation evaluated on a
two-row store over the window `[0, 100]`. -/
theorem C5_get_window_witness :
    let r1 : EventRow := { id := 1, event_type := "track_play", lane := "music", title := "A",
                           started_at := 20, ended_at := some 30, status := "completed",
                           created_at := 1 }
    let r2 : EventRow := { id := 2, event_type := "voice_segment", lane := "dj", title := "B",
                           started_at := 5, ended_at := none, status := "active",
                           created_at := 2 }
    let db : DB := { rows := [r1, r2], details := [{ event_id := 1, key := "k", value := "v" }] }
    get_window none 0 100 none = [] ∧
    (∀ e : EventOut, e ∈ get_window (some db) 0 100 none ↔
      (e.row ∈ db.rows ∧
       e.row.started_at ≤ 100 ∧
       (e.row.ended_at = none ∨ ∃ t, e.row.ended_at = some t ∧ 0 ≤ t) ∧
       lane_ok none e.row = true ∧
       e.details = db.details.filter (fun d => d.event_id == e.row.id))) ∧
    List.Sorted (fun x y : EventOut => x.row.started_at ≤ y.row.started_at)
      (get_window (some db) 0 100 none) :=
  C5_get_window _ 0 100 none (by norm_num)

/-- C9: calling `start_event` with an explicit `started_at` of `0.0` is
indistinguishable from omitting the argument — the Python `started_at or
now` treats the falsy zero as absent — so the stored row and the
published message both carry the current wall-clock time instead of 0. -/
theorem C9_zero_started_at (db : DB) (nid : Nat) (z : Int)
    (event_type lane title : String) (details : List (String × String))
    (status : String) (now : ℚ) :
    start_event ⟨some db, nid, z⟩ event_type lane title details status (some 0) now
      = start_event ⟨some db, nid, z⟩ event_type lane title details status none now ∧
    ((start_event ⟨some db, nid, z⟩ event_type lane title details status (some 0) now).2.2.map
        (fun p => p.started_at)) = some now ∧
    ((start_event ⟨some db, nid, z⟩ event_type lane title details status (some 0) now).1.db.map
        (fun d => d.rows.getLast?.map (fun r => r.started_at))) = some (some now) := by
  refine ⟨?_, ?_, ?_⟩ <;> simp [start_event]

end Radiodan.Store

namespace Radiodan.Planner

/-- Helper: the element `insertIdx` put at position `k` is read back there. -/
theorem get?_insertIdx_self : ∀ (l : List Track) (k : Nat) (a : Track), k ≤ l.length →
    (l.insertIdx k a).get? k = some a
  | _, 0, _, _ => rfl
  | [], k + 1, _, h => absurd h (by simp)
  | x :: xs, k + 1, a, h => by
    rw [List.insertIdx_succ_cons]
    exact get?_insertIdx_self xs k a (by simpa using h)

/-- Helper: the clamped insertion position of `insert_track` at a
position that is at most the queue length. -/
theorem insert_track_pos_eq (k n : Nat) (h : k ≤ n) :
    (if (k : Int) ≥ (n : Int) then n else (max 0 (k : Int)).toNat) = k := by
  split <;> omega

/-- Helper: `insert_track` at an in-range position, fully evaluated: the
looked-up track gets the complement of its predecessor's stagger bit (or
of the store's last music z-stagger at the head) and a fresh event id,
lands at exactly the requested position, and the op resyncs, persists and
emits in the source's order. -/
theorem insert_track_eq (st : PState) (p : String) (k : Nat) (tr : Track)
    (hfind : st.library.find? (fun t => t.file_path == p) = some tr)
    (hk : k ≤ st.upcoming.length) :
    insert_track st p (some (k : Int)) =
      (let prev_z : Int :=
        if 0 < k then
          (match st.upcoming.get? (k - 1) with
           | some t => t.z_stagger
           | none => 0)
        else st.last_music_z
       let track2 : Track :=
        { tr with z_stagger := 1 - prev_z, event_id := some st.next_event_id }
       let q := st.upcoming.insertIdx k track2
       (true,
        { st with
            upcoming := q
            next_event_id := st.next_event_id + 1
            last_music_z := 1 - prev_z },
        Effect.start_scheduled_event track2 :: Effect.update_times :: sync_effects q ++
          [Effect.save_queue q, Effect.queue_changed q])) := by
  unfold insert_track
  rw [hfind]
  simp only [insert_track_pos_eq k st.upcoming.length hk, create_scheduled_event]

/-- C10: `remove_track` at any out-of-range position returns `None` with
no state change and no side effect; `move_track` with any out-of-range
endpoint returns `False` and changes nothing; and `move_track(i, i)` at a
valid position returns `True` and changes nothing. -/
theorem C10_out_of_range_mutations (st : PState) (p i j : Int) (q : Nat)
    (hp : p < 0 ∨ (st.upcoming.length : Int) ≤ p)
    (hij : i < 0 ∨ (st.upcoming.length : Int) ≤ i ∨ j < 0 ∨ (st.upcoming.length : Int) ≤ j)
    (hq : q < st.upcoming.length) :
    remove_track st p = (none, st, []) ∧
    move_track st i j = (false, st, []) ∧
    move_track st (q : Int) (q : Int) = (true, st, []) := by
  refine ⟨?_, ?_, ?_⟩
  · unfold remove_track
    rw [if_pos hp]
  · unfold move_track
    simp only
    rw [if_pos (by omega)]
  · unfold move_track
    simp only
    rw [if_neg (by push_cast; omega)]
    simp

/-- C10 (witness): the guard behaviour evaluated on a two-track queue
with positions 5, -1 and 1. -/
theorem C10_out_of_range_mutations_witness :
    let ta : Track := { file_path := "a", duration_seconds := 200, z_stagger := 1,
                        event_id := some 7 }
    let tb : Track := { file_path := "b", duration_seconds := 180, z_stagger := 0,
                        event_id := some 8 }
    let st : PState := { library := [], upcoming := [ta, tb], lookahead := 5,
                         last_music_z := 0, next_event_id := 9 }
    remove_track st 5 = (none, st, []) ∧
    move_track st (-1) 1 = (false, st, []) ∧
    move_track st ((1 : Nat) : Int) ((1 : Nat) : Int) = (true, st, []) :=
  C10_out_of_range_mutations
    { library := [],
      upcoming := [{ file_path := "a", duration_seconds := 200, z_stagger := 1,
                     event_id := some 7 },
                   { file_path := "b", duration_seconds := 180, z_stagger := 0,
                     event_id := some 8 }],
      lookahead := 5, last_music_z := 0, next_event_id := 9 }
    5 (-1) 1 1 (by decide) (by decide) (by decide)

end Radiodan.Planner

namespace Radiodan.Planner

/-- The stagger-bit sequence of a queue. -/
def staggers (l : List Track) : List Int := l.map (fun t => t.z_stagger)

/-- The alternation invariant on a bare bit sequence. -/
def altZ : List Int → Bool
  | [] => true
  | [_] => true
  | a :: b :: rest => (b == 1 - a) && altZ (b :: rest)

/-- Helper: `alternating` only looks at the stagger bits. -/
theorem alternating_eq_altZ : ∀ l : List Track, alternating l = altZ (staggers l)
  | [] => rfl
  | [_] => rfl
  | a :: b :: rest => by
    show ((b.z_stagger == 1 - a.z_stagger) && alternating (b :: rest)) = _
    rw [alternating_eq_altZ (b :: rest)]
    rfl

/-- Helper: an index-dependent rewrite that leaves each entry's stagger
bit alone leaves the stagger sequence alone. -/
theorem staggers_mapIdx (f : Nat → Track → Track)
    (hf : ∀ i t, (f i t).z_stagger = t.z_stagger) (l : List Track) :
    staggers (l.mapIdx f) = staggers l := by
  rw [List.mapIdx_eq_enum_map]
  unfold staggers
  rw [List.map_map]
  have h1 : (fun t : Track => t.z_stagger) ∘ Function.uncurry f
      = fun p : Nat × Track => p.2.z_stagger := by
    funext p
    exact hf p.1 p.2
  rw [h1]
  have h2 : (fun p : Nat × Track => p.2.z_stagger)
      = (fun t : Track => t.z_stagger) ∘ Prod.snd := rfl
  rw [h2, ← List.map_map, List.enum_map_snd]

/-- Helper: appending an entry whose bit complements the last entry's bit
preserves alternation. -/
theorem alternating_append_complement : ∀ (l : List Track) (t : Track),
    alternating l = true →
    (match l.getLast? with
     | some p => t.z_stagger = 1 - p.z_stagger
     | none => True) →
    alternating (l ++ [t]) = true
  | [], t, _, _ => rfl
  | [a], t, _, h2 => by
    simp only [List.getLast?_singleton] at h2
    show (t.z_stagger == 1 - a.z_stagger) && alternating [t] = true
    simp [alternating, h2]
  | a :: b :: rest, t, h1, h2 => by
    have h1s : ((b.z_stagger == 1 - a.z_stagger) && alternating (b :: rest)) = true := h1
    rw [Bool.and_eq_true] at h1s
    have hrec := alternating_append_complement (b :: rest) t h1s.2
      (by rwa [List.getLast?_cons_cons] at h2)
    show ((b.z_stagger == 1 - a.z_stagger) && alternating (b :: rest ++ [t])) = true
    rw [Bool.and_eq_true]
    exact ⟨h1s.1, hrec⟩

/-- Helper: the selection loop of the refill only appends entries whose
bit complements its predecessor's, so alternation is preserved. -/
theorem fill_select_alternating : ∀ (feeds : List Track) (st : PState),
    alternating st.upcoming = true →
    alternating (fill_select feeds st).1.upcoming = true
  | [], _, h => h
  | t :: rest, st, h => by
    unfold fill_select
    split
    · exact fill_select_alternating rest _
        (alternating_append_complement st.upcoming (assign_z st.upcoming st.last_music_z t) h
          (by
            unfold assign_z
            cases hl : st.upcoming.getLast? with
            | none => simp [hl]
            | some p => simp [hl]))
    · exact h

/-- Helper: the selection loop appends its additions to the queue. -/
theorem fill_select_upcoming_append : ∀ (feeds : List Track) (st : PState),
    (fill_select feeds st).1.upcoming = st.upcoming ++ (fill_select feeds st).2
  | [], st => by simp [fill_select]
  | t :: rest, st => by
    unfold fill_select
    split
    · simp only
      rw [fill_select_upcoming_append rest]
      simp
    · simp

/-- Helper: the head bit of a queue is the head of its stagger sequence. -/
theorem head_staggers : ∀ l : List Track,
    (l.head?.map (fun t => t.z_stagger)) = (staggers l).head?
  | [] => rfl
  | _ :: _ => rfl

/-- Helper: a selection-loop run starting from the empty queue puts the
first fed track (with its assigned bit) at the head, and adds at least
one track. -/
theorem fill_select_head_empty (t : Track) (rest : List Track) (st : PState)
    (hemp : st.upcoming = []) (hlook : 0 < st.lookahead) :
    (fill_select (t :: rest) st).1.upcoming.head?
      = some (assign_z st.upcoming st.last_music_z t) ∧
    (fill_select (t :: rest) st).2 ≠ [] := by
  unfold fill_select
  rw [if_pos (by rw [hemp]; simpa using hlook)]
  simp only
  constructor
  · rw [fill_select_upcoming_append rest]
    simp [hemp]
  · simp

/-- C2 (counterexample): on the queue `[z=1, z=0]` over a library holding
`p`, `insert_track("p", 1)` succeeds but produces bits `[1, 0, 0]`
(the successor entry's bit is never reassigned), and on `[z=1, z=0, z=1]`
`move_track(0, 2)` succeeds but produces bits `[0, 1, 1]`; both break the
claimed adjacent-alternation invariant. -/
theorem C2_counterexample :
    let ta : Track := { file_path := "a", duration_seconds := 180, z_stagger := 1,
                        event_id := some 1 }
    let tb : Track := { file_path := "b", duration_seconds := 180, z_stagger := 0,
                        event_id := some 2 }
    let tc : Track := { file_path := "c", duration_seconds := 180, z_stagger := 1,
                        event_id := some 3 }
    let tp : Track := { file_path := "p", duration_seconds := 180, z_stagger := 0,
                        event_id := none }
    let st : PState := { library := [tp], upcoming := [ta, tb], lookahead := 5,
                         last_music_z := 0, next_event_id := 4 }
    let stm : PState := { library := [], upcoming := [ta, tb, tc], lookahead := 5,
                          last_music_z := 0, next_event_id := 4 }
    alternating st.upcoming = true ∧
    (insert_track st "p" (some 1)).1 = true ∧
    alternating (insert_track st "p" (some 1)).2.1.upcoming = false ∧
    alternating stm.upcoming = true ∧
    (move_track stm 0 2).1 = true ∧
    alternating (move_track stm 0 2).2.1.upcoming = false := by
  refine ⟨?_, ?_, ?_, ?_, ?_, ?_⟩ <;> rfl

/-- C2 (amended): the alternation invariant is guaranteed by the refill
performed during `advance` (each appended entry's bit complements its
predecessor's, and a refill starting from an empty queue starts from
`1 - last_music_z_stagger`), but the queue mutations only make weaker
guarantees: `insert_track` assigns *only the inserted entry's* bit (the
complement of its predecessor's, or of `last_music_z_stagger` at the
head) without reassigning the successor, and `move_track` moves entries
with their bits unchanged; neither preserves alternation in general. -/
theorem C2_stagger_properties :
    (∀ (feeds : List Track) (st : PState), alternating st.upcoming = true →
      alternating (fill_queue feeds st).1.upcoming = true) ∧
    (∀ (t : Track) (rest : List Track) (st : PState),
      st.upcoming = [] → 0 < st.lookahead →
      ((fill_queue (t :: rest) st).1.upcoming.head?.map (fun tr => tr.z_stagger))
        = some (1 - st.last_music_z)) ∧
    (∀ (st : PState) (p : String) (k : Nat) (tr : Track),
      st.library.find? (fun t => t.file_path == p) = some tr →
      k ≤ st.upcoming.length →
      ((insert_track st p (some (k : Int))).2.1.upcoming.get? k).map (fun t => t.z_stagger)
        = some (1 - (if 0 < k then
            (match st.upcoming.get? (k - 1) with
             | some t => t.z_stagger
             | none => 0)
           else st.last_music_z))) ∧
    (∀ (st : PState) (i j : Nat), i < st.upcoming.length → j < st.upcoming.length →
      (move_track st (i : Int) (j : Int)).2.1.upcoming.length = st.upcoming.length ∧
      ∀ t ∈ (move_track st (i : Int) (j : Int)).2.1.upcoming, t ∈ st.upcoming) := by
  refine ⟨?_, ?_, ?_, ?_⟩
  · intro feeds st h
    unfold fill_queue
    simp only
    split
    · exact fill_select_alternating feeds st h
    · rw [alternating_eq_altZ, staggers_mapIdx _ (fun i t => by split <;> rfl),
        ← alternating_eq_altZ]
      exact fill_select_alternating feeds st h
  · intro t rest st hemp hlook
    obtain ⟨hhead, hne⟩ := fill_select_head_empty t rest st hemp hlook
    have hz : (assign_z st.upcoming st.last_music_z t).z_stagger = 1 - st.last_music_z := by
      unfold assign_z
      rw [hemp]
      rfl
    unfold fill_queue
    simp only
    split
    · next hcase =>
      rw [List.isEmpty_iff] at hcase
      exact absurd hcase hne
    · rw [head_staggers, staggers_mapIdx _ (fun i t => by split <;> rfl), ← head_staggers,
        hhead]
      simp [hz]
  · intro st p k tr hfind hk
    rw [insert_track_eq st p k tr hfind hk]
    simp only
    rw [get?_insertIdx_self st.upcoming k _ hk]
    rfl
  · intro st i j hi hj
    by_cases hij : i = j
    · subst hij
      unfold move_track
      simp only
      rw [if_neg (by push_cast; omega)]
      simp
    · have hmove : move_track st (i : Int) (j : Int)
          = (match st.upcoming.get? i with
             | none => (false, st, [])
             | some track =>
               let q := (st.upcoming.eraseIdx i).insertIdx j track
               (true, { st with upcoming := q },
                sync_effects q ++ [Effect.update_times, Effect.save_queue q,
                  Effect.queue_changed q])) := by
        unfold move_track
        rw [if_neg (by push_cast; omega), if_neg (by omega)]
        simp only [Int.toNat_natCast]
      have hget : ∃ track, st.upcoming.get? i = some track := by
        cases hg : st.upcoming.get? i with
        | none => exact absurd (List.get?_eq_none.mp hg) (by omega)
        | some track => exact ⟨track, rfl⟩
      obtain ⟨track, hg⟩ := hget
      rw [hmove, hg]
      simp only
      have hlen_erase : (st.upcoming.eraseIdx i).length = st.upcoming.length - 1 := by
        rw [List.length_eraseIdx]
        simp [hi]
      have hj_le : j ≤ (st.upcoming.eraseIdx i).length := by omega
      constructor
      · rw [List.length_insertIdx j _ hj_le]
        omega
      · intro x hx
        rw [List.mem_insertIdx hj_le] at hx
        cases hx with
        | inl hx =>
          subst hx
          exact List.get?_mem hg
        | inr hx =>
          exact (List.eraseIdx_sublist st.upcoming i).subset hx

/-- C2 (witness): the amended stagger properties instantiated on concrete
queues: a refill of two feeds onto an alternating one-entry queue, a
refill from the empty queue, an insert at the head, and a move on a
two-entry queue. -/
theorem C2_stagger_properties_witness :
    let ta : Track := { file_path := "a", duration_seconds := 180, z_stagger := 1,
                        event_id := some 1 }
    let tb : Track := { file_path := "b", duration_seconds := 180, z_stagger := 0,
                        event_id := some 2 }
    let tp : Track := { file_path := "p", duration_seconds := 180, z_stagger := 0,
                        event_id := none }
    let st0 : PState := { library := [tp], upcoming := [ta], lookahead := 3,
                          last_music_z := 1, next_event_id := 4 }
    let ste : PState := { library := [], upcoming := [], lookahead := 3,
                          last_music_z := 1, next_event_id := 4 }
    let stm : PState := { library := [], upcoming := [ta, tb], lookahead := 3,
                          last_music_z := 0, next_event_id := 4 }
    alternating (fill_queue [tb, tp] st0).1.upcoming = true ∧
    ((fill_queue [tb] ste).1.upcoming.head?.map (fun tr => tr.z_stagger))
      = some (1 - ste.last_music_z) ∧
    ((insert_track st0 "p" (some ((0 : Nat) : Int))).2.1.upcoming.get? 0).map
        (fun t => t.z_stagger)
      = some (1 - (if 0 < (0 : Nat) then
          (match st0.upcoming.get? ((0 : Nat) - 1) with
           | some t => t.z_stagger
           | none => 0)
         else st0.last_music_z)) ∧
    ((move_track stm ((0 : Nat) : Int) ((1 : Nat) : Int)).2.1.upcoming.length
        = stm.upcoming.length ∧
     ∀ t ∈ (move_track stm ((0 : Nat) : Int) ((1 : Nat) : Int)).2.1.upcoming,
       t ∈ stm.upcoming) := by
  refine ⟨?_, ?_, ?_, ?_⟩
  · exact C2_stagger_properties.1 [_, _] _ rfl
  · exact C2_stagger_properties.2.1 _ [] _ rfl (by decide)
  · exact C2_stagger_properties.2.2.1 _ "p" 0
      { file_path := "p", duration_seconds := 180, z_stagger := 0, event_id := none }
      (by decide) (by decide)
  · exact C2_stagger_properties.2.2.2 _ 0 1 (by decide) (by decide)

end Radiodan.Planner

namespace Radiodan.Voice

/-- C1 (counterexample): with the between-songs queue holding segments of
priorities 10, 20 and 30 (event ids 1, 2, 3), submitting an `asap`
segment of priority −5 does NOT keep the priority-10 segment: the kept
filter `priority ≤ −5` keeps nothing, so the priority-10 segment is
removed and its event is ended `cancelled` along with the other two. -/
theorem C1_counterexample :
    (submit 5 { text := "urgent", trigger := "asap", priority := -5, audio_duration := 0,
                event_id := none }
        { between_queue := [between_seg 10 1, between_seg 20 2, between_seg 30 3],
          before_end_triggers := [], after_start_triggers := [] }).1.between_queue = [] ∧
    VEffect.end_event 1 "cancelled" ∈
      (submit 5 { text := "urgent", trigger := "asap", priority := -5, audio_duration := 0,
                  event_id := none }
          { between_queue := [between_seg 10 1, between_seg 20 2, between_seg 30 3],
            before_end_triggers := [], after_start_triggers := [] }).2 := by
  constructor
  · rfl
  · decide

/-- C1 (amended): in the claimed scenario the interrupt flushes the
mixer's TTS queue and cancels *all three* queued segments — every
between-songs segment with priority number strictly greater than −5,
which includes the priority-10 one — ending each of their events
`cancelled`, and then the interrupt segment plays immediately. -/
theorem C1_interrupt_cancels_all (e1 e2 e3 : Int) (cf : ℚ) (txt : String) :
    submit cf { text := txt, trigger := "asap", priority := -5, audio_duration := 0,
                event_id := none }
        { between_queue := [between_seg 10 e1, between_seg 20 e2, between_seg 30 e3],
          before_end_triggers := [], after_start_triggers := [] }
      = ({ between_queue := [], before_end_triggers := [], after_start_triggers := [] },
         [VEffect.start_event "active"
            { text := txt, trigger := "asap", priority := -5, audio_duration := 0,
              event_id := none },
          VEffect.flush_tts,
          VEffect.end_event e1 "cancelled", VEffect.end_event e2 "cancelled",
          VEffect.end_event e3 "cancelled",
          VEffect.play
            { text := txt, trigger := "asap", priority := -5, audio_duration := 0,
              event_id := none }]) := by
  rfl

/-- C6: a bridge-triggered segment is registered as a before-end trigger:
at `(audio_duration + crossfade_duration) / 2` seconds before track end
when `audio_duration > 0`, and at exactly `crossfade_duration` seconds
before end when `audio_duration ≤ 0`. -/
theorem C6_bridge_trigger (cf : ℚ) (seg : VoiceSegment) (st : VState)
    (hseg : seg.trigger = "bridge") :
    (0 < seg.audio_duration →
      (submit cf seg st).1.before_end_triggers
        = st.before_end_triggers ++ [((seg.audio_duration + cf) / 2, seg)]) ∧
    (seg.audio_duration ≤ 0 →
      (submit cf seg st).1.before_end_triggers
        = st.before_end_triggers ++ [(cf, seg)]) := by
  constructor
  · intro hd
    simp [submit, hseg, schedule_bridge, bridge_trigger_at, not_le.mpr hd]
  · intro hd
    simp [submit, hseg, schedule_bridge, bridge_trigger_at, hd]

/-- C6 (witness): crossfade 5 s with an 8-second voice registers the
trigger at 6.5 s before end; with a zero-duration voice it falls back to
5 s (the crossfade duration). -/
theorem C6_bridge_trigger_witness :
    (submit 5 { text := "x", trigger := "bridge", priority := 0, audio_duration := 8,
                event_id := none }
        { between_queue := [], before_end_triggers := [],
          after_start_triggers := [] }).1.before_end_triggers
      = [] ++ [(((8 : ℚ) + 5) / 2,
          { text := "x", trigger := "bridge", priority := 0, audio_duration := 8,
            event_id := none })] ∧
    (submit 5 { text := "y", trigger := "bridge", priority := 0, audio_duration := 0,
                event_id := none }
        { between_queue := [], before_end_triggers := [],
          after_start_triggers := [] }).1.before_end_triggers
      = [] ++ [((5 : ℚ),
          { text := "y", trigger := "bridge", priority := 0, audio_duration := 0,
            event_id := none })] ∧
    ((8 : ℚ) + 5) / 2 = 13 / 2 := by
  refine ⟨(C6_bridge_trigger 5 _ _ rfl).1 (by norm_num),
    (C6_bridge_trigger 5 _ _ rfl).2 (by norm_num), by norm_num⟩

end Radiodan.Voice

namespace Radiodan.Planner

/-- Helper: the queue resync always raises — `flush_music_queue` is not
among the attributes any mixer defines. -/
theorem sync_liquidsoap_queue_run_raises (q : List Track) :
    sync_liquidsoap_queue_run q = Except.error "AttributeError: flush_music_queue" := rfl

/-- Helper: `insert_track` execution at an in-range position, fully
evaluated: the in-memory insert and the event-store writes happen, then
the resync raises. -/
theorem insert_track_run_eq (st : PState) (p : String) (k : Nat) (tr : Track)
    (hfind : st.library.find? (fun t => t.file_path == p) = some tr)
    (hk : k ≤ st.upcoming.length) :
    insert_track_run st p (some (k : Int)) =
      (let prev_z : Int :=
        if 0 < k then
          (match st.upcoming.get? (k - 1) with
           | some t => t.z_stagger
           | none => 0)
        else st.last_music_z
       let track2 : Track :=
        { tr with z_stagger := 1 - prev_z, event_id := some st.next_event_id }
       ({ st with
            upcoming := st.upcoming.insertIdx k track2
            next_event_id := st.next_event_id + 1
            last_music_z := 1 - prev_z },
        [Effect.start_scheduled_event track2, Effect.update_times],
        Except.error "AttributeError: flush_music_queue")) := by
  unfold insert_track_run
  rw [hfind]
  simp only [insert_track_pos_eq k st.upcoming.length hk, create_scheduled_event,
    sync_liquidsoap_queue_run_raises]

/-- Helper: `remove_track` execution at an in-range position, fully
evaluated: the pop and the `skipped` event write happen, then the resync
raises. -/
theorem remove_track_run_eq (st : PState) (pos : Nat) (rem : Track)
    (hget : st.upcoming.get? pos = some rem) :
    remove_track_run st (pos : Int) =
      ({ st with upcoming := st.upcoming.eraseIdx pos },
       (match rem.event_id with
        | some eid => if 0 < eid then [Effect.end_event eid "skipped"] else []
        | none => ([] : List Effect)),
       Except.error "AttributeError: flush_music_queue") := by
  have hk : pos < st.upcoming.length := by
    by_contra h
    rw [List.get?_eq_none.mpr (by omega)] at hget
    exact Option.noConfusion hget
  unfold remove_track_run
  rw [if_neg (by push_cast; omega)]
  simp only [Int.toNat_natCast, hget, sync_liquidsoap_queue_run_raises]

/-- Helper: the only effects a removal performs before the crash are
`skipped` event closures. -/
theorem cancel_only_end_events (o : Option Int) (e : Effect)
    (h : e ∈ (match o with
      | some eid => if 0 < eid then [Effect.end_event eid "skipped"] else []
      | none => ([] : List Effect))) :
    ∃ eid, e = Effect.end_event eid "skipped" := by
  cases o with
  | none => simp at h
  | some eid =>
    by_cases h0 : 0 < eid
    · simp [h0] at h
      exact ⟨eid, h⟩
    · simp [h0] at h

/-- C3 (code bug): the claim describes the intended mutation contract,
but the program cannot deliver it: `_sync_liquidsoap_queue` calls
`self.mixer.flush_music_queue()`, an attribute no mixer in the
repository defines, so every in-range `insert_track`/`remove_track`
raises `AttributeError` after its in-memory change and event-store
write — `insert_track` never returns `True`, `remove_track` never
returns the removed track, and neither call flushes the music queue,
re-pushes the upcoming list, persists the queue or emits
`queue_changed`. -/
theorem C3_mutations_crash_at_flush (st : PState) (p : String) (k pos : Nat) (tr : Track)
    (hfind : st.library.find? (fun t => t.file_path == p) = some tr)
    (hk : k ≤ st.upcoming.length) (hpos : pos < st.upcoming.length) :
    Radiodan.Mixer.mixer_method_names.contains "flush_music_queue" = false ∧
    (insert_track_run st p (some (k : Int))).2.2
      = Except.error "AttributeError: flush_music_queue" ∧
    Effect.flush_music_queue ∉ (insert_track_run st p (some (k : Int))).2.1 ∧
    (∀ q : List Track, Effect.save_queue q ∉ (insert_track_run st p (some (k : Int))).2.1) ∧
    (∀ q : List Track,
      Effect.queue_changed q ∉ (insert_track_run st p (some (k : Int))).2.1) ∧
    (remove_track_run st (pos : Int)).2.2
      = Except.error "AttributeError: flush_music_queue" ∧
    Effect.flush_music_queue ∉ (remove_track_run st (pos : Int)).2.1 ∧
    (∀ q : List Track, Effect.save_queue q ∉ (remove_track_run st (pos : Int)).2.1) ∧
    (∀ q : List Track, Effect.queue_changed q ∉ (remove_track_run st (pos : Int)).2.1) := by
  obtain ⟨rem, hget⟩ : ∃ rem, st.upcoming.get? pos = some rem := by
    cases hg : st.upcoming.get? pos with
    | none => exact absurd (List.get?_eq_none.mp hg) (by omega)
    | some r => exact ⟨r, rfl⟩
  rw [insert_track_run_eq st p k tr hfind hk, remove_track_run_eq st pos rem hget]
  simp only
  refine ⟨by decide, by first | rfl | trivial, by simp, by simp, by simp,
    by first | rfl | trivial, ?_, ?_, ?_⟩
  · intro h
    obtain ⟨eid, he⟩ := cancel_only_end_events _ _ h
    exact Effect.noConfusion he
  · intro q h
    obtain ⟨eid, he⟩ := cancel_only_end_events _ _ h
    exact Effect.noConfusion he
  · intro q h
    obtain ⟨eid, he⟩ := cancel_only_end_events _ _ h
    exact Effect.noConfusion he

/-- C3 (witness): the crash evaluated on a one-track library and a
two-track queue, inserting at position 1 and removing position 1. -/
theorem C3_mutations_crash_at_flush_witness :
    let tp : Track := { file_path := "p", duration_seconds := 100, z_stagger := 0,
                        event_id := none }
    let ta : Track := { file_path := "a", duration_seconds := 200, z_stagger := 1,
                        event_id := some 7 }
    let tb : Track := { file_path := "b", duration_seconds := 180, z_stagger := 0,
                        event_id := some 8 }
    let st : PState := { library := [tp], upcoming := [ta, tb], lookahead := 5,
                         last_music_z := 0, next_event_id := 9 }
    Radiodan.Mixer.mixer_method_names.contains "flush_music_queue" = false ∧
    (insert_track_run st "p" (some ((1 : Nat) : Int))).2.2
      = Except.error "AttributeError: flush_music_queue" ∧
    Effect.flush_music_queue ∉ (insert_track_run st "p" (some ((1 : Nat) : Int))).2.1 ∧
    (∀ q : List Track,
      Effect.save_queue q ∉ (insert_track_run st "p" (some ((1 : Nat) : Int))).2.1) ∧
    (∀ q : List Track,
      Effect.queue_changed q ∉ (insert_track_run st "p" (some ((1 : Nat) : Int))).2.1) ∧
    (remove_track_run st ((1 : Nat) : Int)).2.2
      = Except.error "AttributeError: flush_music_queue" ∧
    Effect.flush_music_queue ∉ (remove_track_run st ((1 : Nat) : Int)).2.1 ∧
    (∀ q : List Track, Effect.save_queue q ∉ (remove_track_run st ((1 : Nat) : Int)).2.1) ∧
    (∀ q : List Track,
      Effect.queue_changed q ∉ (remove_track_run st ((1 : Nat) : Int)).2.1) :=
  C3_mutations_crash_at_flush
    { library := [{ file_path := "p", duration_seconds := 100, z_stagger := 0,
                    event_id := none }],
      upcoming := [{ file_path := "a", duration_seconds := 200, z_stagger := 1,
                     event_id := some 7 },
                   { file_path := "b", duration_seconds := 180, z_stagger := 0,
                     event_id := some 8 }],
      lookahead := 5, last_music_z := 0, next_event_id := 9 }
    "p" 1 1
    { file_path := "p", duration_seconds := 100, z_stagger := 0, event_id := none }
    (by decide) (by decide) (by decide)

end Radiodan.Planner
